import Mathlib

/-!
Shallow embedding of the `errx` Go library (github.com/hamidghavidel/errx).

The repository contains two historical variants of the library:

* a functional variant (`New`, `Wrap`, and option functions `WithHTTPCode`,
  `WithCustomCode`, `WithContext` of type `Property = func(error) error`),
  built on `github.com/pkg/errors` (whose `Is`, `As`, `Unwrap`, `Wrap` are
  the standard-library chain walkers plus the wrap-with-prefix primitive);
* a method-based variant (`errx.go`) with a mutable `*CustomError` receiver
  and methods `Wrap`, `WithHttpCode`, `WithCustomCode`, `WithContext`.

Both are embedded below.  Go `error` interface values are modelled by the
inductive `Err`; a nil `error` is `(none : Option Err)` at the positions
where the code can receive or return nil.  Go's `context.Context` is the
opaque type `Ctx` (`Ctx.background` is `context.Background()`); a nil
context interface value is `(none : Option Ctx)`.
-/

/-- Opaque model of Go `context.Context` values.  `background` is the
process-wide `context.Background()` singleton; `token n` stands for any
other context handle. -/
inductive Ctx where
  | background
  | token (n : Nat)
deriving DecidableEq, Repr

/-- Model of the Go `error` values that can arise in the functional variant:

* `fundamental msg` — `pkg/errors.New(msg)` (display text `msg`, no
  `Unwrap` method);
* `withMessage cause msg` / `withStack inner` — the two layers produced by
  `pkg/errors.Wrap(cause, msg)`, each with an `Unwrap` method;
* `custom ptr base Message HTTPCode CustomCode CTX` — a `CustomError`
  struct value when `ptr = false`, a `*CustomError` pointer when
  `ptr = true` (the struct is declared in `part_002` lines 11-17; it has
  methods `Error` and `Cause` but no `Unwrap`).  `base` is the `base error`
  field (nil = `none`), `CTX` the `CTX context.Context` field (nil =
  `none`). -/
inductive Err where
  | fundamental (msg : String)
  | withMessage (cause : Err) (msg : String)
  | withStack (inner : Err)
  | custom (ptr : Bool) (base : Option Err) (Message : String)
      (HTTPCode : Int) (CustomCode : Int) (CTX : Option Ctx)

/-- The fields of a `CustomError` struct value, as copied into a local
`var customErr CustomError` by a successful `errors.As(err, &customErr)`. -/
structure CustomVal where
  base : Option Err
  Message : String
  HTTPCode : Int
  CustomCode : Int
  CTX : Option Ctx

/-- `Cause` method of `CustomError` (part_002 lines 32-34): returns the
`base` field. -/
def CustomVal.Cause (v : CustomVal) : Option Err :=
  v.base

/-- Display text (`Error()` method) of each error value.

* `fundamental`: `pkg/errors` fundamental returns its message;
* `withMessage`: `w.msg + ": " + w.cause.Error()`;
* `withStack`: delegates to the wrapped error;
* `custom`: part_002 lines 22-28: `fmt.Sprintf("%s: %s", baseErrMsg,
  e.Message)` where `baseErrMsg` is `""` when `base` is nil and
  `base.Error()` otherwise. -/
def errorText : Err → String
  | .fundamental msg => msg
  | .withMessage cause msg => msg ++ ": " ++ errorText cause
  | .withStack inner => errorText inner
  | .custom _ base msg _ _ _ =>
      (match base with
       | none => ""
       | some b => errorText b) ++ ": " ++ msg

/-- Standard-library `errors.As(err, &customErr)` with `customErr` a
`CustomError` struct variable, as used throughout part_002.  At each node:
if the dynamic type is assignable to `CustomError` (only a `CustomError`
struct value is), copy it out; otherwise, since none of the types involved
has an `As` method, follow the `Unwrap` method.  `withMessage`/`withStack`
have `Unwrap`; `fundamental` does not; `CustomError` and `*CustomError`
have none either (part_002 defines only `Error` and `Cause`), so the walk
stops at them. -/
def asCustom : Err → Option CustomVal
  | .fundamental _ => none
  | .withMessage cause _ => asCustom cause
  | .withStack inner => asCustom inner
  | .custom true _ _ _ _ _ => none
  | .custom false base msg h c x => some ⟨base, msg, h, c, x⟩

/-- Go equality `err == target` on our model of interface values.
Distinct dynamic types are never equal; a struct value and a pointer are
different dynamic types (the `ptr` flags must agree).  (For pointers this
is an over-approximation of Go identity: two structurally equal pointers
compare equal here; no theorem below depends on distinguishing them.) -/
def errEq : Err → Err → Bool
  | .fundamental a, .fundamental b => a == b
  | .withMessage c1 m1, .withMessage c2 m2 => errEq c1 c2 && m1 == m2
  | .withStack a, .withStack b => errEq a b
  | .custom p1 b1 m1 h1 c1 x1, .custom p2 b2 m2 h2 c2 x2 =>
      p1 == p2 &&
      (match b1, b2 with
       | none, none => true
       | some u, some v => errEq u v
       | _, _ => false) &&
      m1 == m2 && h1 == h2 && c1 == c2 && x1 == x2
  | _, _ => false

/-- Standard-library `errors.Is(err, target)` (re-exported by
`pkg/errors.Is`, part_002 line 140) with a non-nil `target`: compare the
current error with `target`, then follow `Unwrap`.  None of the types in
this library has an `Is(error) bool` method in the functional variant, and
only `withMessage`/`withStack` have `Unwrap`. -/
def goIs : Err → Err → Bool
  | .withMessage cause msg, t => errEq (.withMessage cause msg) t || goIs cause t
  | .withStack inner, t => errEq (.withStack inner) t || goIs inner t
  | e, t => errEq e t

/-- `errors.Is` applied to a possibly-nil first argument. -/
def goIsO : Option Err → Err → Bool
  | none, _ => false
  | some e, t => goIs e t

/-- `errors.As` applied to a possibly-nil first argument (a nil error has
no chain). -/
def asCustomO : Option Err → Option CustomVal
  | none => none
  | some e => asCustom e

/-- The `Property` option type of part_002 line 9: `func(err error) error`
(only ever applied to non-nil errors). -/
def Property := Err → Err

/-- `WithHTTPCode` (part_002 lines 84-98): if the error extracts as a
`CustomError`, set `HTTPCode` on the extracted copy and return the copy
(a struct value); otherwise return a fresh `CustomError{Message:
err.Error(), HTTPCode: httpCode}` (all other fields zero: nil base, zero
codes, nil context). -/
def WithHTTPCode (httpCode : Int) : Property := fun err =>
  match asCustom err with
  | some v => .custom false v.base v.Message httpCode v.CustomCode v.CTX
  | none => .custom false none (errorText err) httpCode 0 none

/-- `WithCustomCode` (part_002 lines 103-117): same shape as
`WithHTTPCode` but for the `CustomCode` field. -/
def WithCustomCode (customCode : Int) : Property := fun err =>
  match asCustom err with
  | some v => .custom false v.base v.Message v.HTTPCode customCode v.CTX
  | none => .custom false none (errorText err) 0 customCode none

/-- `WithContext` (part_002 lines 122-136): same shape but for the `CTX`
field. -/
def WithContext (ctx : Ctx) : Property := fun err =>
  match asCustom err with
  | some v => .custom false v.base v.Message v.HTTPCode v.CustomCode (some ctx)
  | none => .custom false none (errorText err) 0 0 (some ctx)

/-- `New` (part_002 lines 39-54): with no properties, `errors.New(msg)`
(a `pkg/errors` fundamental); otherwise start from the struct value
`CustomError{Message: msg, CTX: context.Background()}` and fold the
properties over it left to right. -/
def New (msg : String) (properties : List Property) : Err :=
  match properties with
  | [] => .fundamental msg
  | props =>
      List.foldl (fun result property => property result)
        (.custom false none msg 0 0 (some Ctx.background)) props

/-- `Wrap` (part_002 lines 59-79): nil cause returns nil; a cause that
extracts as a `CustomError` is wrapped as `&CustomError{base: customErr,
Message: msg}` (a pointer whose `base` holds the extracted struct value,
other fields zero) with the properties folded over that pointer; any other
cause goes to `pkg/errors.Wrap(err, msg)` — the properties are not applied
on that branch. -/
def Wrap (err : Option Err) (msg : String) (properties : List Property) :
    Option Err :=
  match err with
  | none => none
  | some e =>
      match asCustom e with
      | some v =>
          some (List.foldl (fun result property => property result)
            (.custom true
              (some (.custom false v.base v.Message v.HTTPCode v.CustomCode v.CTX))
              msg 0 0 none)
            properties)
      | none => some (.withStack (.withMessage e msg))

/-- The `CTX` field read off an error value (what `customErr.CTX` gives
after extraction; part_002 exposes the field directly). -/
def ctxOf : Err → Option Ctx
  | .custom _ _ _ _ _ x => x
  | _ => none

/-- Model of the Go `error` values arising in the method-based variant
(`errx.go`): plain errors (e.g. `fmt.Errorf`) and `*CustomError` pointers
(`errx.go` lines 8-14: fields `base error`, `message string`, `httpCode
int`, `customCode int`, `ctx context.Context`).  The mutation of the
receiver performed by the methods is made explicit by returning the
updated record alongside the method's return value where needed. -/
inductive MErr where
  | plain (msg : String)
  | custom (base : Option MErr) (message : String) (httpCode : Int)
      (customCode : Int) (ctx : Option Ctx)

/-- `New` of `errx.go` (lines 17-22): `&CustomError{message: msg, ctx:
context.Background()}`. -/
def MNew (msg : String) : MErr :=
  .custom none msg 0 0 (some Ctx.background)

/-- `Error()` of `errx.go` (lines 25-27): returns `e.message` only (the
cause's text is never included); a plain error returns its own text. -/
def MError : MErr → String
  | .plain msg => msg
  | .custom _ msg _ _ _ => msg

/-- `Cause()` (and equally `Unwrap()`) of `errx.go` (lines 30-33, 66-69):
returns the `base` field.  On a plain error the method does not exist;
`none` stands for that unreachable case. -/
def MCause : MErr → Option MErr
  | .plain _ => none
  | .custom b _ _ _ _ => b

/-- `Wrap` method of `errx.go` (lines 49-52): `e.base = err; return err`.
The first component is the mutated receiver, the second the returned
value.  The method exists only on `*CustomError`; the `plain` branch is an
unreachable placeholder (no theorem uses it). -/
def MWrap : MErr → MErr → MErr × MErr
  | .custom _ m h c x, err => (.custom (some err) m h c x, err)
  | e, err => (e, err)

/-- Option lists for the functional variant, as syntax: each element is
one of the three option constructors exported by part_002.  `interpOpt`
maps them to the actual `Property` functions, so that theorems can
quantify over arbitrary sequences of the library's options. -/
inductive OptSpec where
  | http (code : Int)
  | customC (code : Int)
  | withCtx (ctx : Ctx)

/-- Interpretation of an `OptSpec` as the corresponding option function of
part_002. -/
def interpOpt : OptSpec → Property
  | .http code => WithHTTPCode code
  | .customC code => WithCustomCode code
  | .withCtx ctx => WithContext ctx

/-- The HTTP code left after a sequence of options, starting from `d`:
the last `http` option wins. -/
def lastHttp : List OptSpec → Int → Int
  | [], d => d
  | .http code :: rest, _ => lastHttp rest code
  | _ :: rest, d => lastHttp rest d

/-- The custom code left after a sequence of options, starting from `d`. -/
def lastCustom : List OptSpec → Int → Int
  | [], d => d
  | .customC code :: rest, _ => lastCustom rest code
  | _ :: rest, d => lastCustom rest d

/-- The context handle left after a sequence of options, starting from
`d`: the last `withCtx` option wins. -/
def lastCtx : List OptSpec → Ctx → Ctx
  | [], d => d
  | .withCtx ctx :: rest, _ => lastCtx rest ctx
  | _ :: rest, d => lastCtx rest d

theorem foldl_interpOpt (ops : List OptSpec) :
    ∀ (b : Option Err) (m : String) (h c : Int) (c0 : Ctx),
    List.foldl (fun result property => property result)
      (Err.custom false b m h c (some c0)) (ops.map interpOpt)
    = Err.custom false b m (lastHttp ops h) (lastCustom ops c)
        (some (lastCtx ops c0)) := by
  induction ops with
  | nil => intro b m h c c0; rfl
  | cons o rest ih =>
      intro b m h c c0
      cases o with
      | http code =>
          simpa [interpOpt, WithHTTPCode, asCustom, lastHttp, lastCustom,
            lastCtx] using ih b m code c c0
      | customC code =>
          simpa [interpOpt, WithCustomCode, asCustom, lastHttp, lastCustom,
            lastCtx] using ih b m h code c0
      | withCtx ctx =>
          simpa [interpOpt, WithContext, asCustom, lastHttp, lastCustom,
            lastCtx] using ih b m h c ctx

/-- C1: at the failing input `m1 = "a"`, `m2 = "b"`, with `e1 = New(m1,
WithHTTPCode(404))` and `e2 = Wrap(e1, m2)`: `e2` does NOT extract as a
`CustomError` value via `errors.As` (it is a `*CustomError` pointer, not
assignable to the value type, and `CustomError` has no `Unwrap` method),
and `Is(e2, e1)` returns false (the chain cannot be walked), contradicting
the claim that both succeed. -/
theorem c1_wrap_breaks_chain :
    asCustomO (Wrap (some (New "a" [WithHTTPCode 404])) "b" []) = none ∧
    goIsO (Wrap (some (New "a" [WithHTTPCode 404])) "b" [])
      (New "a" [WithHTTPCode 404]) = false :=
  ⟨rfl, by decide⟩

/-- C2: at the failing input `Wrap(New("a", WithHTTPCode(404)), "b",
WithHTTPCode(500))`: the option applied after `Wrap` does not see the
intermediate `*CustomError` as enriched, coerces a brand-new value from
its display text, and the final error's `Cause()` is nil — the cause set
by `Wrap` is NOT preserved, contradicting the claim. -/
theorem c2_option_after_wrap_drops_cause :
    Wrap (some (New "a" [WithHTTPCode 404])) "b" [WithHTTPCode 500]
      = some (.custom false none ": a: b" 500 0 none) ∧
    (asCustomO (Wrap (some (New "a" [WithHTTPCode 404])) "b"
      [WithHTTPCode 500])).map CustomVal.Cause = some none ∧
    (some (none : Option Err) : Option (Option Err)) ≠
      some (some (New "a" [WithHTTPCode 404])) :=
  ⟨rfl, rfl, by simp⟩

/-- C3 counterexample: `Wrap(New("a", WithHTTPCode(1)), "b",
WithHTTPCode(2))` is built by the library, extracts as a `CustomError`
value, no `WithContext` was supplied, and yet its `CTX` field is nil
(`none`), not the background handle — refuting "never absent/nil". -/
theorem c3_counterexample_nil_ctx :
    asCustomO (Wrap (some (New "a" [WithHTTPCode 1])) "b" [WithHTTPCode 2])
      = some ⟨none, ": a: b", 2, 0, none⟩ ∧
    (⟨none, ": a: b", 2, 0, none⟩ : CustomVal).CTX ≠ some Ctx.background :=
  ⟨rfl, by simp⟩

/-- C3 (amended): for errors built by `New` with at least one option, the
`CTX` field is the handle supplied by the last `WithContext` option, and
the background handle when no `WithContext` is supplied — never nil.  (The
claim's extension to `Wrap`-built errors is refuted by the
counterexample.) -/
theorem c3_new_ctx_never_nil (m : String) (ops : List OptSpec)
    (hne : ops ≠ []) :
    ctxOf (New m (ops.map interpOpt)) = some (lastCtx ops Ctx.background) := by
  cases ops with
  | nil => exact absurd rfl hne
  | cons o rest =>
      have h1 : New m ((o :: rest).map interpOpt)
          = List.foldl (fun result property => property result)
            (Err.custom false none m 0 0 (some Ctx.background))
            ((o :: rest).map interpOpt) := rfl
      rw [h1, foldl_interpOpt]
      rfl

/-- Witness for the amended C3 at `m = "a"`, `ops = [http 404]`. -/
theorem c3_new_ctx_never_nil_witness :
    ([OptSpec.http 404] : List OptSpec) ≠ [] ∧
    ctxOf (New "a" ([OptSpec.http 404].map interpOpt))
      = some (lastCtx [OptSpec.http 404] Ctx.background) :=
  ⟨by simp, c3_new_ctx_never_nil "a" [OptSpec.http 404] (by simp)⟩

/-- C4: `New(m, WithHTTPCode(h), WithCustomCode(c))` with nonzero `h`, `c`
extracts as a `CustomError` with `HTTPCode = h` and `CustomCode = c`: the
second option does not drop the field set by the first. -/
theorem c4_field_roundtrip (m : String) (h c : Int) (hh : h ≠ 0)
    (hc : c ≠ 0) :
    asCustom (New m [WithHTTPCode h, WithCustomCode c])
      = some ⟨none, m, h, c, some Ctx.background⟩ := rfl

/-- Witness for C4 at `m = "a"`, `h = 404`, `c = 7`. -/
theorem c4_field_roundtrip_witness :
    ((404 : Int) ≠ 0 ∧ (7 : Int) ≠ 0) ∧
    asCustom (New "a" [WithHTTPCode 404, WithCustomCode 7])
      = some ⟨none, "a", 404, 7, some Ctx.background⟩ :=
  ⟨⟨by decide, by decide⟩, c4_field_roundtrip "a" 404 7 (by decide) (by decide)⟩

/-- C5 counterexample (method variant, `errx.go`): after `e := New("m")`
and `e.Wrap(plain "x")`, the receiver has the non-nil cause `plain "x"`
but `Error()` returns just `"m"`, not `"x" ++ ": " ++ "m"` — the
method-variant `Error()` never includes the cause's text. -/
theorem c5_counterexample_method_error :
    MCause ((MWrap (MNew "m") (MErr.plain "x")).1) = some (MErr.plain "x") ∧
    MError ((MWrap (MNew "m") (MErr.plain "x")).1) = "m" ∧
    MError ((MWrap (MNew "m") (MErr.plain "x")).1) ≠
      MError (MErr.plain "x") ++ ": " ++ "m" :=
  ⟨rfl, rfl, by decide⟩

/-- C5 (amended): in the functional variant (part_002) an enriched error
with a non-nil cause displays exactly `cause.Error() ++ ": " ++ message`;
in the method variant (`errx.go`) `Error()` returns the error's own
message regardless of the cause. -/
theorem c5_error_text_by_variant :
    (∀ (ptr : Bool) (b : Err) (m : String) (h c : Int) (x : Option Ctx),
      errorText (Err.custom ptr (some b) m h c x) = errorText b ++ ": " ++ m) ∧
    (∀ (b : MErr) (m : String) (h c : Int) (x : Option Ctx),
      MError (MErr.custom (some b) m h c x) = m) :=
  ⟨fun _ _ _ _ _ _ => rfl, fun _ _ _ _ _ => rfl⟩

/-- C6: `New(m)` with no options yields `errors.New(m)`: display text is
`m` and it does not extract as a `CustomError`. -/
theorem c6_zero_option_plain (m : String) :
    errorText (New m []) = m ∧ asCustom (New m []) = none :=
  ⟨rfl, rfl⟩

/-- C7: `Wrap(nil, m, options...)` returns nil for every message and every
option list; the guard returns before the options are ever applied. -/
theorem c7_nil_wrap_noop (m : String) (properties : List Property) :
    Wrap none m properties = none := rfl

/-- C8: options apply left to right with overwrite semantics: two
`WithHTTPCode` options leave the second code in the `HTTPCode` field. -/
theorem c8_last_option_wins (m : String) (c1 c2 : Int) :
    asCustom (New m [WithHTTPCode c1, WithHTTPCode c2])
      = some ⟨none, m, c2, 0, some Ctx.background⟩ := rfl

/-- C9: wrapping a plain (non-enriched) error `p` with message `y` goes
through `pkg/errors.Wrap`, whose display text is `y ++ ": " ++ p.Error()`
— in particular it contains `y` before `p`'s text. -/
theorem c9_plain_wrap_prefixes (p : Err) (y : String)
    (hp : asCustom p = none) :
    Wrap (some p) y [] = some (.withStack (.withMessage p y)) ∧
    errorText (Err.withStack (.withMessage p y)) = y ++ ": " ++ errorText p ∧
    ∃ mid, errorText (Err.withStack (.withMessage p y))
      = y ++ mid ++ errorText p := by
  refine ⟨?_, rfl, ": ", rfl⟩
  simp [Wrap, hp]

/-- Witness for C9 at `p = fundamental "x"`, `y = "y"`. -/
theorem c9_plain_wrap_prefixes_witness :
    asCustom (Err.fundamental "x") = none ∧
    (Wrap (some (Err.fundamental "x")) "y" []
        = some (.withStack (.withMessage (Err.fundamental "x") "y")) ∧
      errorText (Err.withStack (.withMessage (Err.fundamental "x") "y"))
        = "y" ++ ": " ++ errorText (Err.fundamental "x") ∧
      ∃ mid, errorText (Err.withStack (.withMessage (Err.fundamental "x") "y"))
        = "y" ++ mid ++ errorText (Err.fundamental "x")) :=
  ⟨rfl, c9_plain_wrap_prefixes (Err.fundamental "x") "y" rfl⟩

/-- C10: the method-variant `Wrap` returns its argument itself (not the
receiver), with the side effect of setting the receiver's `base` to the
argument; the returned value's display text is the argument's text. -/
theorem c10_method_wrap_returns_argument (b : Option MErr) (m : String)
    (h c : Int) (x : Option Ctx) (err : MErr) :
    MWrap (.custom b m h c x) err = (.custom (some err) m h c x, err) ∧
    MError (MWrap (.custom b m h c x) err).2 = MError err :=
  ⟨rfl, rfl⟩
